import Mathlib

/-!
Verification of the AITimeGen timetable generator (`src/app.py`).

The program builds a CP-SAT model assigning lectures to
(section, slot, subject, teacher, room) boolean variables, adds hard
constraints (quota, single-teacher continuity, teacher/room slot
exclusivity), a back-to-back "soft" gadget, solves, and decodes the
solution into timetable entries served over a small Flask API.

The constraint solver backend is opaque (spec §4.5): we embed the model
that the code submits as a decidable satisfaction predicate over
valuations of the three variable families the code creates (assignment
variables, per-teacher "chosen" indicators, back-to-back indicators).
A solve outcome of OPTIMAL or FEASIBLE hands the code a valuation that
satisfies every submitted constraint; theorems about decoded timetables
therefore hypothesise `modelOK ... = true`.
-/

namespace AITimeGen

/-! ## Domain model (`src/app.py` lines 11–42) -/

structure Teacher where
  id : String
  name : String
  subject_ids : List String
  unavailable_slots : List Nat
deriving DecidableEq

structure Section where
  id : String
  name : String
  subject_ids : List String
deriving DecidableEq

/-- `Room.__init__` takes exactly `id`, `name`, `is_lab` (lines 24–28):
a room has no unavailable-slot field. -/
structure Room where
  id : String
  name : String
  is_lab : Bool
deriving DecidableEq

structure Subject where
  id : String
  name : String
  lec_per_week : Nat
  requires_lab : Bool
deriving DecidableEq

structure LectureSlot where
  id : String
  day : String
  start_time : String
  end_time : String
deriving DecidableEq

/-- The key of one assignment variable:
`(section.id, slot_idx, subj_id, teacher.id, room.id)` (line 73). -/
structure Key where
  sec : String
  slot : Nat
  subj : String
  teacher : String
  room : String
deriving DecidableEq

structure Input where
  teachers : List Teacher
  sections : List Section
  rooms : List Room
  subjects : List Subject
  lecture_slots : List LectureSlot
deriving DecidableEq

/-- `subject_map = {s.id: s for s in subjects}` (line 50): a Python dict
comprehension keeps the last entry for a repeated id. -/
def subjLookup (subjects : List Subject) (sid : String) : Option Subject :=
  subjects.foldl (fun acc s => if s.id = sid then some s else acc) none

/-- Insertion-order deduplication: a Python dict keyed by `Key` keeps the
position of the first insertion of each key. -/
def dedupFirst {α : Type} [DecidableEq α] (l : List α) : List α :=
  l.foldl (fun acc x => if x ∈ acc then acc else acc ++ [x]) []

/-- The variable-creation loop nest (lines 54–73): for each section, slot
index, required subject, teacher and room, a key is created unless one of
the static filters rejects the combination.  A subject id missing from
`subject_map` raises `KeyError` in Python; here it contributes no keys and
`create_timetable` reports the error (see `wfSubjects`). -/
def rawKeys (inp : Input) : List Key :=
  inp.sections.flatMap fun sec =>
    (List.range inp.lecture_slots.length).flatMap fun i =>
      sec.subject_ids.flatMap fun sid =>
        (subjLookup inp.subjects sid).toList.flatMap fun subj =>
          inp.teachers.flatMap fun t =>
            if sid ∈ t.subject_ids ∧ i ∉ t.unavailable_slots then
              inp.rooms.filterMap fun r =>
                if subj.requires_lab ∧ ¬ r.is_lab then none
                else some ⟨sec.id, i, sid, t.id, r.id⟩
            else []

/-- Keys of the `assignment` dict, in `assignment.items()` order. -/
def assignmentKeys (inp : Input) : List Key :=
  dedupFirst (rawKeys inp)

/-- Every subject id referenced by a section is present in `subject_map`
(otherwise line 57 raises `KeyError`). -/
def wfSubjects (inp : Input) : Bool :=
  inp.sections.all fun sec => sec.subject_ids.all fun sid =>
    (subjLookup inp.subjects sid).isSome

/-! ## Constraint families (lines 79–185)

Each family filters `assignment.items()` exactly as the Python code does;
the filtered lists below are in `items()` order. -/

/-- Variables for one (section, subject) pair — quota constraint, line 85. -/
def pairKeys (inp : Input) (secId sid : String) : List Key :=
  (assignmentKeys inp).filter fun k => decide (k.sec = secId ∧ k.subj = sid)

/-- Variables for one (section, subject, teacher) triple — continuity
constraint, line 105. -/
def pairTeacherKeys (inp : Input) (secId sid tid : String) : List Key :=
  (assignmentKeys inp).filter fun k =>
    decide (k.sec = secId ∧ k.subj = sid ∧ k.teacher = tid)

/-- Variables of one teacher at one slot — exclusivity (line 124) and the
back-to-back gadget (lines 156, 163) filter `assignment.items()` this way. -/
def lecturesAt (inp : Input) (tid : String) (i : Nat) : List Key :=
  (assignmentKeys inp).filter fun k => decide (k.slot = i ∧ k.teacher = tid)

/-- Variables in one room at one slot — room exclusivity, line 137. -/
def roomAt (inp : Input) (rid : String) (i : Nat) : List Key :=
  (assignmentKeys inp).filter fun k => decide (k.slot = i ∧ k.room = rid)

/-- Constraint 1 (lines 79–90): for each section and each of its subjects,
the number of true assignment variables equals `lec_per_week`. -/
def quotaOK (inp : Input) (va : Key → Bool) : Bool :=
  inp.sections.all fun sec => sec.subject_ids.all fun sid =>
    match subjLookup inp.subjects sid with
    | some subj => (pairKeys inp sec.id sid).countP va == subj.lec_per_week
    | none => false

/-- Constraint 2 (lines 92–116): per qualified teacher a chosen indicator,
reified in both directions (`sum == 0` if not chosen, `sum > 0` if chosen,
lines 111–112), and — when any qualified teacher exists — exactly one
chosen indicator true (line 116). -/
def contOK (inp : Input) (va : Key → Bool)
    (vc : String × String × String → Bool) : Bool :=
  inp.sections.all fun sec => sec.subject_ids.all fun sid =>
    let qts := inp.teachers.filter fun t => decide (sid ∈ t.subject_ids)
    (qts.all fun t =>
      vc (sec.id, sid, t.id) ==
        decide (0 < (pairTeacherKeys inp sec.id sid t.id).countP va))
    && (qts.isEmpty ||
        (qts.countP fun t => vc (sec.id, sid, t.id)) == 1)

/-- Constraint 3 (lines 119–130): at most one lecture per (slot, teacher). -/
def teacherExclOK (inp : Input) (va : Key → Bool) : Bool :=
  (List.range inp.lecture_slots.length).all fun i =>
    inp.teachers.all fun t =>
      decide ((lecturesAt inp t.id i).countP va ≤ 1)

/-- Constraint 4 (lines 133–143): at most one lecture per (slot, room). -/
def roomExclOK (inp : Input) (va : Key → Bool) : Bool :=
  (List.range inp.lecture_slots.length).all fun i =>
    inp.rooms.all fun r =>
      decide ((roomAt inp r.id i).countP va ≤ 1)

/-- The four hard constraint families of spec §4.3. -/
def hardOK (inp : Input) (va : Key → Bool)
    (vc : String × String × String → Bool) : Bool :=
  quotaOK inp va && contOK inp va vc && teacherExclOK inp va && roomExclOK inp va

/-- The back-to-back gadget (lines 150–182).  For each teacher and each
adjacent slot pair with at least one variable on each side, the code posts
exactly three clauses on the indicator `b2b = vb (teacher.id, i)` and the
first-listed variables `c0`, `n0` of the two sides (lines 177–179):
`¬b2b ∨ ¬c0 ∨ ¬n0`, `c0 → b2b`, and `n0 → b2b`. -/
def b2bOK (inp : Input) (va : Key → Bool) (vb : String × Nat → Bool) : Bool :=
  inp.teachers.all fun t =>
    (List.range (inp.lecture_slots.length - 1)).all fun i =>
      match (lecturesAt inp t.id i).head?, (lecturesAt inp t.id (i+1)).head? with
      | some c0, some n0 =>
          (!(vb (t.id, i)) || !(va c0) || !(va n0))
          && (!(va c0) || vb (t.id, i))
          && (!(va n0) || vb (t.id, i))
      | _, _ => true

/-- A valuation is accepted by the submitted model iff it satisfies every
posted constraint.  (The objective only ranks accepted valuations.) -/
def modelOK (inp : Input) (va : Key → Bool)
    (vc : String × String × String → Bool)
    (vb : String × Nat → Bool) : Bool :=
  hardOK inp va vc && b2bOK inp va vb

/-! ## Solution decoding (lines 196–220) -/

/-- One decoded timetable entry (lines 206–214). -/
structure Entry where
  «section» : String
  subject : String
  teacher : String
  room : String
  day : String
  start_time : String
  end_time : String
deriving DecidableEq

/-- The iteration space of the decoding loop nest (lines 199–203):
section × enumerated slot × subject id × teacher × room, in loop order. -/
def decodeTuples (inp : Input) :
    List (Section × (Nat × LectureSlot) × String × Teacher × Room) :=
  inp.sections.flatMap fun sec =>
    inp.lecture_slots.enum.flatMap fun p =>
      sec.subject_ids.flatMap fun sid =>
        inp.teachers.flatMap fun t =>
          inp.rooms.map fun r => (sec, p, sid, t, r)

def keyOfTuple : Section × (Nat × LectureSlot) × String × Teacher × Room → Key
  | (sec, p, sid, t, r) => ⟨sec.id, p.1, sid, t.id, r.id⟩

/-- The entry appended at line 206: names and slot attributes of the loop
objects; the subject name goes through `subject_map` (line 208), which is
populated for every key present in `assignment`. -/
def entryOfTuple (inp : Input) :
    Section × (Nat × LectureSlot) × String × Teacher × Room → Entry
  | (sec, p, sid, t, r) =>
    { «section» := sec.name
      subject := ((subjLookup inp.subjects sid).map Subject.name).getD ""
      teacher := t.name
      room := r.name
      day := p.2.day
      start_time := p.2.start_time
      end_time := p.2.end_time }

/-- The decoding loop (lines 196–215): an entry is appended for each loop
tuple whose key is in `assignment` and solved true. -/
def decodedPairs (inp : Input) (va : Key → Bool) : List (Key × Entry) :=
  (decodeTuples inp).filterMap fun tup =>
    if keyOfTuple tup ∈ assignmentKeys inp ∧ va (keyOfTuple tup) then
      some (keyOfTuple tup, entryOfTuple inp tup)
    else none

def decode (inp : Input) (va : Key → Bool) : List Entry :=
  (decodedPairs inp va).map Prod.snd

/-! ## Solver adapter and `create_timetable` result (lines 188–220) -/

inductive SolveStatus where
  | optimal
  | feasible
  | infeasible
  | unknown
  | modelInvalid
deriving DecidableEq

/-- What `solver.Solve` hands back: a status, and (read on
OPTIMAL/FEASIBLE) the values of the three variable families. -/
structure SolveResult where
  status : SolveStatus
  va : Key → Bool
  vc : String × String × String → Bool
  vb : String × Nat → Bool

/-- `create_timetable` returns either a list of entry dicts or, on
INFEASIBLE, a plain string (line 219). -/
inductive TTResult where
  | table (entries : List Entry)
  | infeasibleMsg (msg : String)
deriving DecidableEq

/-- `create_timetable` (lines 47–220), with the opaque solve call supplied
as `res`.  A section subject id missing from `subject_map` raises
`KeyError` at line 57 before anything is solved; that is the only
exception the function can raise, modelled as `Except.error`. -/
def create_timetable (inp : Input) (res : SolveResult) : Except String TTResult :=
  if wfSubjects inp then
    .ok (match res.status with
      | .optimal | .feasible => .table (decode inp res.va)
      | .infeasible =>
          .infeasibleMsg "Model is INFEASIBLE. Check constraints for conflicts."
      | _ => .table [])
  else .error "KeyError"

/-! ## Flask API layer (lines 225–239) -/

/-- A `rooms` array element of the request body.  `Room(**r)` accepts only
`id`, `name`, `is_lab`; `unavailable_slots` (or any other extra field,
collected in `extra_fields`) makes the constructor call raise `TypeError`. -/
structure RoomInput where
  id : String
  name : String
  is_lab : Bool
  unavailable_slots : Option (List Nat) := none
  extra_fields : List String := []
deriving DecidableEq

def mkRoom (r : RoomInput) : Except String Room :=
  if r.unavailable_slots = none ∧ r.extra_fields = [] then
    .ok ⟨r.id, r.name, r.is_lab⟩
  else .error "TypeError: unexpected keyword argument"

structure Request where
  teachers : List Teacher
  sections : List Section
  rooms : List RoomInput
  subjects : List Subject
  lectureSlots : List LectureSlot

/-- Entity construction (lines 229–233); only room construction can fail
in this embedding. -/
def parseRequest (req : Request) : Except String Input := do
  let rooms ← req.rooms.mapM mkRoom
  pure ⟨req.teachers, req.sections, rooms, req.subjects, req.lectureSlots⟩

/-- The JSON response: body `status` field, HTTP code, and the `timetable`
resp. `error` body fields. -/
structure Response where
  status : String
  http : Nat
  timetable : Option TTResult
  error : Option String
deriving DecidableEq

/-- `generate_timetable_api` (lines 225–239): any exception yields
`{"error": …, "status": "fail"}` with HTTP 500; otherwise whatever
`create_timetable` returned — list or string — is sent back under
`"timetable"` with `"status": "success"` and HTTP 200. -/
def generate_timetable_api (req : Request) (res : SolveResult) : Response :=
  match parseRequest req with
  | .error e => ⟨"fail", 500, none, some e⟩
  | .ok inp =>
    match create_timetable inp res with
    | .error e => ⟨"fail", 500, none, some e⟩
    | .ok tt => ⟨"success", 200, some tt, none⟩


/-! ## Concrete scenarios -/

/-- Spec §8 concrete scenario: section 10A, subject Math (2 lectures/week,
no lab), one qualified teacher unavailable at slot 1 of a 3-slot week, one
ordinary room. -/
def c8T : Teacher := ⟨"T1", "Alice", ["MATH"], [1]⟩

def c8Sec : Section := ⟨"S10A", "10A", ["MATH"]⟩

def c8R : Room := ⟨"R1", "Room 1", false⟩

def c8Subj : Subject := ⟨"MATH", "Math", 2, false⟩

def c8Slots : List LectureSlot :=
  [⟨"L1", "Mon", "09:00", "10:00"⟩, ⟨"L2", "Mon", "10:00", "11:00"⟩,
   ⟨"L3", "Mon", "11:00", "12:00"⟩]

def c8Inp : Input := ⟨[c8T], [c8Sec], [c8R], [c8Subj], c8Slots⟩

def c8Req : Request := ⟨[c8T], [c8Sec], [⟨"R1", "Room 1", false, none, []⟩],
  [c8Subj], c8Slots⟩

def c8k0 : Key := ⟨"S10A", 0, "MATH", "T1", "R1"⟩

def c8k2 : Key := ⟨"S10A", 2, "MATH", "T1", "R1"⟩

def c8e0 : Entry := ⟨"10A", "Math", "Alice", "Room 1", "Mon", "09:00", "10:00"⟩

def c8e2 : Entry := ⟨"10A", "Math", "Alice", "Room 1", "Mon", "11:00", "12:00"⟩

def c8va : Key → Bool := fun k => decide (k = c8k0 ∨ k = c8k2)

def c8vc : String × String × String → Bool := fun _ => true

def c8vb : String × Nat → Bool := fun _ => false

def c8res : SolveResult := ⟨.optimal, c8va, c8vc, c8vb⟩

/-- Two-slot instance with one lecture per week: the teacher can teach at
either slot. -/
def c1T : Teacher := ⟨"T1", "Bob", ["MATH"], []⟩

def c1Sec : Section := ⟨"S1", "9B", ["MATH"]⟩

def c1Subj : Subject := ⟨"MATH", "Math", 1, false⟩

def c1Slots : List LectureSlot :=
  [⟨"L1", "Mon", "09:00", "10:00"⟩, ⟨"L2", "Mon", "10:00", "11:00"⟩]

def c1Inp : Input := ⟨[c1T], [c1Sec], [⟨"R1", "Room 1", false⟩], [c1Subj], c1Slots⟩

def c1kA : Key := ⟨"S1", 0, "MATH", "T1", "R1"⟩

def c1kB : Key := ⟨"S1", 1, "MATH", "T1", "R1"⟩

/-- The solution teaching Math at slot 0 only. -/
def c1va : Key → Bool := fun k => decide (k = c1kA)

def c1vc : String × String × String → Bool := fun _ => true

def c1vb : String × Nat → Bool := fun _ => true

/-- Same instance but with 2 lectures per week: the only way to meet the
quota is to use both adjacent slots. -/
def c9Subj : Subject := ⟨"MATH", "Math", 2, false⟩

def c9Inp : Input := ⟨[c1T], [c1Sec], [⟨"R1", "Room 1", false⟩], [c9Subj], c1Slots⟩

def c9va : Key → Bool := fun _ => true

def c9vc : String × String × String → Bool := fun _ => true

/-- Structurally infeasible instance: the only teacher is qualified for
nothing, so the Math quota constraint is `0 == 1`. -/
def c3T : Teacher := ⟨"T1", "Carl", [], []⟩

def c3Sec : Section := ⟨"S1", "9B", ["MATH"]⟩

def c3Subj : Subject := ⟨"MATH", "Math", 1, false⟩

def c3Slots : List LectureSlot := [⟨"L1", "Mon", "09:00", "10:00"⟩]

def c3Inp : Input := ⟨[c3T], [c3Sec], [⟨"R1", "Room 1", false⟩], [c3Subj], c3Slots⟩

def c3Req : Request := ⟨[c3T], [c3Sec], [⟨"R1", "Room 1", false, none, []⟩],
  [c3Subj], c3Slots⟩

/-- A solve call on the infeasible instance: CP-SAT reports INFEASIBLE and
no variable values are read. -/
def c3Res : SolveResult := ⟨.infeasible, fun _ => false, fun _ => false, fun _ => false⟩

/-- A rooms-array element carrying the extra field `unavailable_slots`. -/
def c10Ri : RoomInput := ⟨"R1", "Room 1", false, some [1], []⟩

def c10Req : Request := ⟨[c8T], [c8Sec], [c10Ri], [c8Subj], c8Slots⟩

/-! helper lemmas -/

theorem mem_ite_nil {α : Type} {c : Prop} [Decidable c] {l : List α} {a : α} :
    a ∈ (if c then l else []) ↔ c ∧ a ∈ l := by
  split <;> simp_all

theorem ite_none_some_eq_some {β : Type} {c : Prop} [Decidable c] {a b : β} :
    ((if c then none else some a) = some b) ↔ ¬c ∧ a = b := by
  split <;> simp_all

theorem dedupFirst_aux_mem {α : Type} [DecidableEq α] (l : List α) (acc : List α) (a : α) :
    a ∈ l.foldl (fun acc x => if x ∈ acc then acc else acc ++ [x]) acc ↔
      a ∈ acc ∨ a ∈ l := by
  induction l generalizing acc with
  | nil => simp
  | cons x xs ih =>
    simp only [List.foldl_cons]
    rw [ih, List.mem_cons]
    split <;> rename_i h
    · constructor
      · rintro (h' | h')
        exacts [Or.inl h', Or.inr (Or.inr h')]
      · rintro (h' | h' | h')
        exacts [Or.inl h', Or.inl (h' ▸ h), Or.inr h']
    · simp only [List.mem_append, List.mem_singleton]
      tauto

theorem mem_dedupFirst {α : Type} [DecidableEq α] {l : List α} {a : α} :
    a ∈ dedupFirst l ↔ a ∈ l := by
  rw [dedupFirst, dedupFirst_aux_mem]; simp

theorem dedupFirst_aux_nodup {α : Type} [DecidableEq α] (l : List α) (acc : List α)
    (h : acc.Nodup) :
    (l.foldl (fun acc x => if x ∈ acc then acc else acc ++ [x]) acc).Nodup := by
  induction l generalizing acc with
  | nil => simpa
  | cons x xs ih =>
    simp only [List.foldl_cons]
    split <;> rename_i hx
    · exact ih _ h
    · exact ih _ (by simp [List.nodup_append, h, hx])

theorem nodup_dedupFirst {α : Type} [DecidableEq α] (l : List α) :
    (dedupFirst l).Nodup :=
  dedupFirst_aux_nodup l [] List.nodup_nil

theorem mem_assignmentKeys {inp : Input} {k : Key} :
    k ∈ assignmentKeys inp ↔ k ∈ rawKeys inp := by
  rw [assignmentKeys, mem_dedupFirst]

theorem mem_rawKeys {inp : Input} {k : Key} :
    k ∈ rawKeys inp ↔
      ∃ sec ∈ inp.sections, ∃ i ∈ List.range inp.lecture_slots.length,
        ∃ sid ∈ sec.subject_ids, ∃ subj, subjLookup inp.subjects sid = some subj ∧
          ∃ t ∈ inp.teachers, (sid ∈ t.subject_ids ∧ i ∉ t.unavailable_slots) ∧
            ∃ r ∈ inp.rooms, ¬(subj.requires_lab ∧ ¬ r.is_lab) ∧
              k = ⟨sec.id, i, sid, t.id, r.id⟩ := by
  simp only [rawKeys, List.mem_flatMap, List.mem_filterMap, Option.mem_toList,
    Option.mem_def, mem_ite_nil, ite_none_some_eq_some]
  constructor
  · rintro ⟨sec, hsec, i, hi, sid, hsid, subj, hsubj, t, ht, ⟨hq, k', hk', hlab, rfl⟩⟩
    exact ⟨sec, hsec, i, hi, sid, hsid, subj, hsubj, t, ht, hq, k', hk', hlab, rfl⟩
  · rintro ⟨sec, hsec, i, hi, sid, hsid, subj, hsubj, t, ht, hq, r, hr, hlab, rfl⟩
    exact ⟨sec, hsec, i, hi, sid, hsid, subj, hsubj, t, ht, hq, r, hr, hlab, rfl⟩



/-! ## Extracting individual constraints from an accepted valuation -/

theorem modelOK_split {inp va vc vb} (h : modelOK inp va vc vb = true) :
    quotaOK inp va = true ∧ contOK inp va vc = true ∧
    teacherExclOK inp va = true ∧ roomExclOK inp va = true ∧
    b2bOK inp va vb = true := by
  simp only [modelOK, hardOK, Bool.and_eq_true] at h
  exact ⟨h.1.1.1.1, h.1.1.1.2, h.1.1.2, h.1.2, h.2⟩

theorem quotaOK_spec {inp va} (h : quotaOK inp va = true) {sec sid subj}
    (hsec : sec ∈ inp.sections) (hsid : sid ∈ sec.subject_ids)
    (hsubj : subjLookup inp.subjects sid = some subj) :
    (pairKeys inp sec.id sid).countP va = subj.lec_per_week := by
  rw [quotaOK, List.all_eq_true] at h
  have h2 := h sec hsec
  rw [List.all_eq_true] at h2
  have h3 := h2 sid hsid
  rw [hsubj] at h3
  simpa using h3

theorem contOK_indicator {inp va vc} (h : contOK inp va vc = true) {sec sid t}
    (hsec : sec ∈ inp.sections) (hsid : sid ∈ sec.subject_ids)
    (ht : t ∈ inp.teachers) (hq : sid ∈ t.subject_ids) :
    vc (sec.id, sid, t.id) =
      decide (0 < (pairTeacherKeys inp sec.id sid t.id).countP va) := by
  rw [contOK, List.all_eq_true] at h
  have h2 := h sec hsec
  rw [List.all_eq_true] at h2
  have h3 := h2 sid hsid
  rw [Bool.and_eq_true, List.all_eq_true] at h3
  have h4 := h3.1 t (by rw [List.mem_filter]; exact ⟨ht, by simpa using hq⟩)
  simpa using h4

theorem contOK_unique {inp va vc} (h : contOK inp va vc = true) {sec sid}
    (hsec : sec ∈ inp.sections) (hsid : sid ∈ sec.subject_ids)
    (hne : (inp.teachers.filter fun t => decide (sid ∈ t.subject_ids)) ≠ []) :
    ((inp.teachers.filter fun t => decide (sid ∈ t.subject_ids)).countP
      fun t => vc (sec.id, sid, t.id)) = 1 := by
  rw [contOK, List.all_eq_true] at h
  have h2 := h sec hsec
  rw [List.all_eq_true] at h2
  have h3 := h2 sid hsid
  rw [Bool.and_eq_true, Bool.or_eq_true] at h3
  rcases h3.2 with h4 | h4
  · exact absurd (List.isEmpty_iff.mp h4) hne
  · simpa using h4

theorem teacherExclOK_spec {inp va} (h : teacherExclOK inp va = true) {t i}
    (ht : t ∈ inp.teachers) (hi : i < inp.lecture_slots.length) :
    (lecturesAt inp t.id i).countP va ≤ 1 := by
  rw [teacherExclOK, List.all_eq_true] at h
  have h2 := h i (List.mem_range.mpr hi)
  rw [List.all_eq_true] at h2
  simpa using h2 t ht

theorem roomExclOK_spec {inp va} (h : roomExclOK inp va = true) {r i}
    (hr : r ∈ inp.rooms) (hi : i < inp.lecture_slots.length) :
    (roomAt inp r.id i).countP va ≤ 1 := by
  rw [roomExclOK, List.all_eq_true] at h
  have h2 := h i (List.mem_range.mpr hi)
  rw [List.all_eq_true] at h2
  simpa using h2 r hr

theorem b2bOK_spec {inp va vb} (h : b2bOK inp va vb = true) {t i c0 n0}
    (ht : t ∈ inp.teachers) (hi : i + 1 < inp.lecture_slots.length)
    (hc : (lecturesAt inp t.id i).head? = some c0)
    (hn : (lecturesAt inp t.id (i + 1)).head? = some n0) :
    ((!(vb (t.id, i)) || !(va c0) || !(va n0)) = true) ∧
    ((!(va c0) || vb (t.id, i)) = true) ∧
    ((!(va n0) || vb (t.id, i)) = true) := by
  rw [b2bOK, List.all_eq_true] at h
  have h2 := h t ht
  rw [List.all_eq_true] at h2
  have h3 := h2 i (List.mem_range.mpr (by omega))
  rw [hc, hn, Bool.and_eq_true, Bool.and_eq_true] at h3
  exact ⟨h3.1.1, h3.1.2, h3.2⟩

/-- The three gadget clauses jointly forbid the two representative
variables from being simultaneously true. -/
theorem b2b_forbids_both {inp va vb} (h : b2bOK inp va vb = true) {t i c0 n0}
    (ht : t ∈ inp.teachers) (hi : i + 1 < inp.lecture_slots.length)
    (hc : (lecturesAt inp t.id i).head? = some c0)
    (hn : (lecturesAt inp t.id (i + 1)).head? = some n0) :
    ¬(va c0 = true ∧ va n0 = true) := by
  rintro ⟨h1, h2⟩
  obtain ⟨hcl, himp1, _⟩ := b2bOK_spec h ht hi hc hn
  rw [h1] at hcl himp1
  rw [h2] at hcl
  cases hb : vb (t.id, i) <;> rw [hb] at hcl himp1 <;> simp_all



/-! ## Membership and multiplicity of the decoding loop -/

theorem mem_decodeTuples {inp : Input} {tup} :
    tup ∈ decodeTuples inp ↔
      tup.1 ∈ inp.sections ∧ tup.2.1 ∈ inp.lecture_slots.enum ∧
      tup.2.2.1 ∈ tup.1.subject_ids ∧ tup.2.2.2.1 ∈ inp.teachers ∧
      tup.2.2.2.2 ∈ inp.rooms := by
  obtain ⟨sec, p, sid, t, r⟩ := tup
  simp only [decodeTuples, List.mem_flatMap, List.mem_map]
  constructor
  · rintro ⟨sec', hsec, p', hp, sid', hsid, t', ht, r', hr, heq⟩
    obtain ⟨rfl, rfl, rfl, rfl, rfl⟩ :=
      Prod.mk.injEq .. ▸ heq
    exact ⟨hsec, hp, hsid, ht, hr⟩
  · rintro ⟨hsec, hp, hsid, ht, hr⟩
    exact ⟨sec, hsec, p, hp, sid, hsid, t, ht, r, hr, rfl⟩

theorem mem_decodedPairs {inp : Input} {va : Key → Bool} {pr : Key × Entry} :
    pr ∈ decodedPairs inp va ↔
      ∃ tup ∈ decodeTuples inp,
        keyOfTuple tup ∈ assignmentKeys inp ∧ va (keyOfTuple tup) = true ∧
        pr = (keyOfTuple tup, entryOfTuple inp tup) := by
  simp only [decodedPairs, List.mem_filterMap]
  constructor
  · rintro ⟨tup, htup, hsome⟩
    by_cases hc : keyOfTuple tup ∈ assignmentKeys inp ∧ va (keyOfTuple tup)
    · rw [if_pos hc] at hsome
      exact ⟨tup, htup, hc.1, hc.2, (Option.some.injEq .. ▸ hsome).symm⟩
    · rw [if_neg hc] at hsome
      exact absurd hsome (by simp)
  · rintro ⟨tup, htup, h1, h2, rfl⟩
    exact ⟨tup, htup, by rw [if_pos ⟨h1, h2⟩]⟩



/-! ## Duplicate-freeness of the decoded key list

Under well-formed inputs (no duplicate entity ids, no duplicate subject id
within a section) each true assignment variable is decoded exactly once. -/

theorem nodup_flatMap_of_proj {α β γ : Type} {l : List α} {f : α → List β}
    {g : β → γ} {h : α → γ} (hl : (l.map h).Nodup)
    (hin : ∀ a ∈ l, ∀ b ∈ f a, g b = h a)
    (hf : ∀ a ∈ l, (f a).Nodup) : (l.flatMap f).Nodup := by
  induction l with
  | nil => simp
  | cons a l ih =>
    rw [List.flatMap_cons, List.nodup_append]
    rw [List.map_cons, List.nodup_cons] at hl
    refine ⟨hf a (by simp), ih hl.2 (fun x hx => hin x (by simp [hx]))
      (fun x hx => hf x (by simp [hx])), ?_⟩
    intro b hb hb'
    rw [List.mem_flatMap] at hb'
    obtain ⟨a', ha', hba'⟩ := hb'
    have e1 : g b = h a := hin a (by simp) b hb
    have e2 : g b = h a' := hin a' (by simp [ha']) b hba'
    exact hl.1 (by rw [List.mem_map]; exact ⟨a', ha', by rw [← e2, e1]⟩)

theorem nodup_filterMap_of_proj {α β γ : Type} {l : List α} {f : α → Option β}
    {g : β → γ} {h : α → γ} (hl : (l.map h).Nodup)
    (hin : ∀ a ∈ l, ∀ b ∈ f a, g b = h a) : (l.filterMap f).Nodup := by
  induction l with
  | nil => simp
  | cons a l ih =>
    rw [List.map_cons, List.nodup_cons] at hl
    rw [List.filterMap_cons]
    have ihl := ih hl.2 (fun x hx => hin x (by simp [hx]))
    cases hfa : f a with
    | none => exact ihl
    | some b =>
      rw [List.nodup_cons]
      refine ⟨?_, ihl⟩
      intro hb
      rw [List.mem_filterMap] at hb
      obtain ⟨a', ha', hba'⟩ := hb
      have e1 : g b = h a := hin a (by simp) b (by rw [hfa]; rfl)
      have e2 : g b = h a' := hin a' (by simp [ha']) b (by rw [hba']; rfl)
      exact hl.1 (by rw [List.mem_map]; exact ⟨a', ha', by rw [← e2, e1]⟩)

theorem nodup_map_of_proj {α β γ : Type} {l : List α} {f : α → β}
    {g : β → γ} {h : α → γ} (hl : (l.map h).Nodup)
    (hin : ∀ a ∈ l, g (f a) = h a) : (l.map f).Nodup := by
  have : (l.map f).map g = l.map h := by
    rw [List.map_map]
    exact List.map_congr_left (fun a ha => hin a ha)
  exact List.Nodup.of_map g (by rw [this]; exact hl)

theorem nodup_tupleKeys {inp : Input}
    (hsec : (inp.sections.map Section.id).Nodup)
    (hsub : ∀ sec ∈ inp.sections, sec.subject_ids.Nodup)
    (ht : (inp.teachers.map Teacher.id).Nodup)
    (hr : (inp.rooms.map Room.id).Nodup) :
    ((decodeTuples inp).map keyOfTuple).Nodup := by
  simp only [decodeTuples, List.map_flatMap, List.map_map]
  apply nodup_flatMap_of_proj (g := Key.sec) (h := Section.id) hsec
  · intro sec _ k hk
    simp only [List.mem_flatMap, List.mem_map, Function.comp] at hk
    obtain ⟨p, _, sid, _, t, _, r, _, rfl⟩ := hk
    rfl
  · intro sec _
    apply nodup_flatMap_of_proj (g := Key.slot) (h := Prod.fst)
      (List.nodup_enum_map_fst _)
    · intro p _ k hk
      simp only [List.mem_flatMap, List.mem_map, Function.comp] at hk
      obtain ⟨sid, _, t, _, r, _, rfl⟩ := hk
      rfl
    · intro p _
      apply nodup_flatMap_of_proj (g := Key.subj) (h := fun sid => sid)
        (by simpa using hsub sec ‹sec ∈ inp.sections›)
      · intro sid _ k hk
        simp only [List.mem_flatMap, List.mem_map, Function.comp] at hk
        obtain ⟨t, _, r, _, rfl⟩ := hk
        rfl
      · intro sid _
        apply nodup_flatMap_of_proj (g := Key.teacher) (h := Teacher.id) ht
        · intro t _ k hk
          simp only [List.mem_map, Function.comp] at hk
          obtain ⟨r, _, rfl⟩ := hk
          rfl
        · intro t _
          exact nodup_map_of_proj (g := Key.room) (h := Room.id) hr
            (fun r _ => rfl)



theorem nodup_decodedKeys {inp : Input} {va : Key → Bool}
    (hsec : (inp.sections.map Section.id).Nodup)
    (hsub : ∀ sec ∈ inp.sections, sec.subject_ids.Nodup)
    (ht : (inp.teachers.map Teacher.id).Nodup)
    (hr : (inp.rooms.map Room.id).Nodup) :
    ((decodedPairs inp va).map Prod.fst).Nodup := by
  rw [decodedPairs, List.map_filterMap]
  apply nodup_filterMap_of_proj (g := fun k => k) (h := keyOfTuple)
    (nodup_tupleKeys hsec hsub ht hr)
  intro tup _ k hk
  split at hk
  · simpa using hk.symm
  · exact absurd hk (by simp)

theorem mem_decodedKeys {inp : Input} {va : Key → Bool} {k : Key} :
    k ∈ (decodedPairs inp va).map Prod.fst ↔
      k ∈ assignmentKeys inp ∧ va k = true := by
  rw [List.mem_map]
  constructor
  · rintro ⟨pr, hpr, rfl⟩
    rw [mem_decodedPairs] at hpr
    obtain ⟨tup, _, h1, h2, rfl⟩ := hpr
    exact ⟨h1, h2⟩
  · rintro ⟨hk, hva⟩
    have hraw := mem_assignmentKeys.mp hk
    rw [mem_rawKeys] at hraw
    obtain ⟨sec, hsec, i, hi, sid, hsid, subj, hsubj, t, htm, hq, r, hrm, hlab, rfl⟩ := hraw
    rw [List.mem_range] at hi
    refine ⟨(⟨sec.id, i, sid, t.id, r.id⟩,
      entryOfTuple inp (sec, (i, inp.lecture_slots.get ⟨i, hi⟩), sid, t, r)), ?_, rfl⟩
    rw [mem_decodedPairs]
    refine ⟨(sec, (i, inp.lecture_slots.get ⟨i, hi⟩), sid, t, r), ?_, hk, hva, rfl⟩
    rw [mem_decodeTuples]
    refine ⟨hsec, ?_, hsid, htm, hrm⟩
    rw [List.mem_enum_iff_getElem?]
    simp [List.getElem?_eq_getElem hi]

/-- Under a well-formed input the decoding loop hits each true assignment
variable exactly once: the decoded keys are a permutation of the true
assignment keys. -/
theorem decodedKeys_perm {inp : Input} {va : Key → Bool}
    (hsec : (inp.sections.map Section.id).Nodup)
    (hsub : ∀ sec ∈ inp.sections, sec.subject_ids.Nodup)
    (ht : (inp.teachers.map Teacher.id).Nodup)
    (hr : (inp.rooms.map Room.id).Nodup) :
    ((decodedPairs inp va).map Prod.fst).Perm ((assignmentKeys inp).filter va) := by
  refine (List.perm_ext_iff_of_nodup (nodup_decodedKeys hsec hsub ht hr)
    (List.Nodup.filter va (nodup_dedupFirst (rawKeys inp)))).mpr ?_
  intro k
  rw [mem_decodedKeys, List.mem_filter]
  rfl

/-- Count of decoded entries selected by a key predicate, rewritten to a
count over the constraint-side key lists. -/
theorem countP_decodedPairs {inp : Input} {va : Key → Bool}
    (hsec : (inp.sections.map Section.id).Nodup)
    (hsub : ∀ sec ∈ inp.sections, sec.subject_ids.Nodup)
    (ht : (inp.teachers.map Teacher.id).Nodup)
    (hr : (inp.rooms.map Room.id).Nodup) (q : Key → Bool) :
    (decodedPairs inp va).countP (fun pr => q pr.1) =
      ((assignmentKeys inp).filter q).countP va := by
  have h1 : (decodedPairs inp va).countP (fun pr => q pr.1) =
      ((decodedPairs inp va).map Prod.fst).countP q := by
    rw [List.countP_map]; rfl
  rw [h1, (decodedKeys_perm hsec hsub ht hr).countP_eq,
    List.countP_filter, List.countP_filter]
  exact List.countP_congr (fun k _ => by rw [Bool.and_comm])



theorem decodedPairs_key_mem {inp : Input} {va : Key → Bool} {pr : Key × Entry}
    (h : pr ∈ decodedPairs inp va) :
    pr.1 ∈ assignmentKeys inp ∧ va pr.1 = true :=
  mem_decodedKeys.mp (List.mem_map.mpr ⟨pr, h, rfl⟩)

theorem two_le_countP {α : Type} {l : List α} {p : α → Bool} {a b : α}
    (ha : a ∈ l) (hb : b ∈ l) (hab : a ≠ b)
    (hpa : p a = true) (hpb : p b = true) : 2 ≤ l.countP p := by
  induction l with
  | nil => simp at ha
  | cons x xs ih =>
    rw [List.countP_cons]
    rcases List.mem_cons.mp ha with rfl | ha'
    · rcases List.mem_cons.mp hb with rfl | hb'
      · exact absurd rfl hab
      · have h1 : 0 < xs.countP p := List.countP_pos_iff.mpr ⟨b, hb', hpb⟩
        rw [if_pos hpa]
        omega
    · rcases List.mem_cons.mp hb with rfl | hb'
      · have h1 : 0 < xs.countP p := List.countP_pos_iff.mpr ⟨a, ha', hpa⟩
        rw [if_pos hpb]
        omega
      · have := ih ha' hb'
        omega

/-- A key present in `assignment` records a teacher of the input qualified
for the key's subject and free at the key's slot, a room of the input
satisfying the lab filter, and a section of the input requiring the
subject. -/
theorem assignmentKeys_shape {inp : Input} {k : Key}
    (h : k ∈ assignmentKeys inp) :
    (∃ sec ∈ inp.sections, sec.id = k.sec ∧ k.subj ∈ sec.subject_ids) ∧
    (∃ subj, subjLookup inp.subjects k.subj = some subj ∧
      ∃ r ∈ inp.rooms, r.id = k.room ∧ (subj.requires_lab = true → r.is_lab = true)) ∧
    (∃ t ∈ inp.teachers, t.id = k.teacher ∧ k.subj ∈ t.subject_ids ∧
      k.slot ∉ t.unavailable_slots) ∧ k.slot < inp.lecture_slots.length := by
  rw [mem_assignmentKeys, mem_rawKeys] at h
  obtain ⟨sec, hsec, i, hi, sid, hsid, subj, hsubj, t, htm, ⟨hq, hav⟩, r, hrm, hlab, rfl⟩ := h
  rw [List.mem_range] at hi
  exact ⟨⟨sec, hsec, rfl, hsid⟩,
    ⟨subj, hsubj, r, hrm, rfl, fun hreq => by
      by_contra hnl
      exact hlab ⟨hreq, by simpa using hnl⟩⟩,
    ⟨t, htm, rfl, hq, hav⟩, hi⟩

/-- **C5**: in every accepted solution, any two decoded entries for the
same (section, subject) pair name the same teacher. -/
theorem c5_single_teacher {inp : Input} {res : SolveResult}
    (_hstat : res.status = .optimal ∨ res.status = .feasible)
    (hm : modelOK inp res.va res.vc res.vb = true)
    {p q : Key × Entry} (hp : p ∈ decodedPairs inp res.va)
    (hq : q ∈ decodedPairs inp res.va)
    (hsec : p.1.sec = q.1.sec) (hsubj : p.1.subj = q.1.subj) :
    p.1.teacher = q.1.teacher := by
  obtain ⟨hk1, hva1⟩ := decodedPairs_key_mem hp
  obtain ⟨hk2, hva2⟩ := decodedPairs_key_mem hq
  obtain ⟨⟨sec1, hsec1, hid1, hsid1⟩, _, ⟨t1, ht1, htid1, hq1, _⟩, _⟩ :=
    assignmentKeys_shape hk1
  obtain ⟨_, _, ⟨t2, ht2, htid2, hq2, _⟩, _⟩ := assignmentKeys_shape hk2
  have hcont := (modelOK_split hm).2.1
  by_contra hne
  -- both teachers' chosen indicators are forced true
  have hv1 : res.vc (sec1.id, p.1.subj, t1.id) = true := by
    rw [contOK_indicator hcont hsec1 hsid1 ht1 hq1]
    refine decide_eq_true (List.countP_pos_iff.mpr ⟨p.1, ?_, hva1⟩)
    rw [pairTeacherKeys, List.mem_filter]
    exact ⟨hk1, decide_eq_true ⟨hid1.symm, rfl, htid1.symm⟩⟩
  have hq2' : p.1.subj ∈ t2.subject_ids := by rw [hsubj]; exact hq2
  have hv2 : res.vc (sec1.id, p.1.subj, t2.id) = true := by
    rw [contOK_indicator hcont hsec1 hsid1 ht2 hq2']
    refine decide_eq_true (List.countP_pos_iff.mpr ⟨q.1, ?_, hva2⟩)
    rw [pairTeacherKeys, List.mem_filter]
    exact ⟨hk2, decide_eq_true ⟨(hsec ▸ hid1).symm, hsubj.symm, htid2.symm⟩⟩
  -- but exactly one indicator may be true
  have htm1 : t1 ∈ inp.teachers.filter fun t => decide (p.1.subj ∈ t.subject_ids) :=
    List.mem_filter.mpr ⟨ht1, decide_eq_true hq1⟩
  have htm2 : t2 ∈ inp.teachers.filter fun t => decide (p.1.subj ∈ t.subject_ids) :=
    List.mem_filter.mpr ⟨ht2, decide_eq_true hq2'⟩
  have hone := contOK_unique hcont hsec1 hsid1 (by
    intro hemp
    rw [hemp] at htm1
    simp at htm1)
  have htne : t1 ≠ t2 := by
    intro heq
    exact hne (by rw [← htid1, ← htid2, heq])
  have h2 := two_le_countP (p := fun t => res.vc (sec1.id, p.1.subj, t.id)) htm1 htm2 htne hv1 hv2
  omega

/-- **C7**: every decoded entry's teacher is qualified for the entry's
subject and free at the entry's slot, and the entry's room satisfies the
subject's lab requirement. -/
theorem c7_qualification_lab_availability {inp : Input} {res : SolveResult}
    (_hstat : res.status = .optimal ∨ res.status = .feasible)
    (ht : (inp.teachers.map Teacher.id).Nodup)
    (hr : (inp.rooms.map Room.id).Nodup)
    {pr : Key × Entry} (hpr : pr ∈ decodedPairs inp res.va) :
    (∃ t ∈ inp.teachers, t.id = pr.1.teacher ∧ pr.2.teacher = t.name ∧
      pr.1.subj ∈ t.subject_ids ∧ pr.1.slot ∉ t.unavailable_slots) ∧
    (∃ subj, subjLookup inp.subjects pr.1.subj = some subj ∧
      pr.2.subject = subj.name ∧
      ∃ r ∈ inp.rooms, r.id = pr.1.room ∧ pr.2.room = r.name ∧
        (subj.requires_lab = true → r.is_lab = true)) := by
  rw [mem_decodedPairs] at hpr
  obtain ⟨⟨sec, pp, sid, t', r'⟩, htup, hk, hva, rfl⟩ := hpr
  rw [mem_decodeTuples] at htup
  obtain ⟨hsecm, hpm, hsidm, htm', hrm'⟩ := htup
  obtain ⟨_, ⟨subj, hsubj, r2, hrm2, hrid2, hlab2⟩, ⟨t2, htm2, htid2, hq2, hav2⟩, _⟩ :=
    assignmentKeys_shape hk
  have ht' : t2 = t' :=
    List.inj_on_of_nodup_map ht htm2 htm' htid2
  have hr' : r2 = r' :=
    List.inj_on_of_nodup_map hr hrm2 hrm' hrid2
  subst ht' hr'
  refine ⟨⟨t2, htm2, rfl, rfl, hq2, hav2⟩, subj, hsubj, ?_, r2, hrm2, rfl, rfl, hlab2⟩
  show ((subjLookup inp.subjects sid).map Subject.name).getD "" = subj.name
  rw [show (keyOfTuple (sec, pp, sid, t2, r2)).subj = sid from rfl] at hsubj
  rw [hsubj]
  rfl



/-- **C4**: in every accepted solution of a well-formed input, the decoded
timetable contains exactly `lec_per_week` entries for each (section,
subject) pair. -/
theorem c4_quota_decoded {inp : Input} {res : SolveResult}
    (_hstat : res.status = .optimal ∨ res.status = .feasible)
    (hm : modelOK inp res.va res.vc res.vb = true)
    (hsecN : (inp.sections.map Section.id).Nodup)
    (hsubN : ∀ sec ∈ inp.sections, sec.subject_ids.Nodup)
    (htN : (inp.teachers.map Teacher.id).Nodup)
    (hrN : (inp.rooms.map Room.id).Nodup)
    {sec : Section} (hsec : sec ∈ inp.sections)
    {sid : String} (hsid : sid ∈ sec.subject_ids)
    {subj : Subject} (hsubj : subjLookup inp.subjects sid = some subj) :
    ((decodedPairs inp res.va).countP fun pr =>
      decide (pr.1.sec = sec.id ∧ pr.1.subj = sid)) = subj.lec_per_week := by
  have h1 := @countP_decodedPairs inp res.va hsecN hsubN htN hrN
    (fun k => decide (k.sec = sec.id ∧ k.subj = sid))
  exact h1.trans (quotaOK_spec (modelOK_split hm).1 hsec hsid hsubj)

/-- **C6**: in every accepted solution of a well-formed input, no teacher
and no room is decoded into two timetable entries at the same slot. -/
theorem c6_no_double_booking {inp : Input} {res : SolveResult}
    (_hstat : res.status = .optimal ∨ res.status = .feasible)
    (hm : modelOK inp res.va res.vc res.vb = true)
    (hsecN : (inp.sections.map Section.id).Nodup)
    (hsubN : ∀ sec ∈ inp.sections, sec.subject_ids.Nodup)
    (htN : (inp.teachers.map Teacher.id).Nodup)
    (hrN : (inp.rooms.map Room.id).Nodup)
    {i : Nat} (hi : i < inp.lecture_slots.length) :
    (∀ t ∈ inp.teachers,
      ((decodedPairs inp res.va).countP fun pr =>
        decide (pr.1.slot = i ∧ pr.1.teacher = t.id)) ≤ 1) ∧
    (∀ r ∈ inp.rooms,
      ((decodedPairs inp res.va).countP fun pr =>
        decide (pr.1.slot = i ∧ pr.1.room = r.id)) ≤ 1) := by
  constructor
  · intro t ht
    have h1 := @countP_decodedPairs inp res.va hsecN hsubN htN hrN
      (fun k => decide (k.slot = i ∧ k.teacher = t.id))
    exact h1.trans_le (teacherExclOK_spec (modelOK_split hm).2.2.1 ht hi)
  · intro r hr
    have h1 := @countP_decodedPairs inp res.va hsecN hsubN htN hrN
      (fun k => decide (k.slot = i ∧ k.room = r.id))
    exact h1.trans_le (roomExclOK_spec (modelOK_split hm).2.2.2.1 hr hi)



/-! ## Success and failure paths of the API pipeline -/

theorem countP_pair_eq_two {p : Key → Bool} {a b : Key}
    (h : List.countP p [a, b] = 2) : p a = true ∧ p b = true := by
  cases ha : p a <;> cases hb : p b <;>
      simp [List.countP_cons, ha, hb] at h
  exact ⟨rfl, rfl⟩

theorem create_timetable_eq_decode {inp : Input} {res : SolveResult}
    (hwf : wfSubjects inp = true)
    (hstat : res.status = .optimal ∨ res.status = .feasible) :
    create_timetable inp res = .ok (.table (decode inp res.va)) := by
  unfold create_timetable
  rw [if_pos hwf]
  rcases hstat with h | h <;> rw [h]

theorem api_of_parse_ok {req : Request} {res : SolveResult} {inp : Input}
    (hparse : parseRequest req = .ok inp) :
    generate_timetable_api req res =
      (match create_timetable inp res with
        | .error e => ⟨"fail", 500, none, some e⟩
        | .ok tt => ⟨"success", 200, some tt, none⟩) := by
  unfold generate_timetable_api
  rw [hparse]

theorem api_success {req : Request} {res : SolveResult} {inp : Input}
    (hparse : parseRequest req = .ok inp) (hwf : wfSubjects inp = true)
    (hstat : res.status = .optimal ∨ res.status = .feasible) :
    generate_timetable_api req res =
      ⟨"success", 200, some (.table (decode inp res.va)), none⟩ := by
  rw [api_of_parse_ok hparse, create_timetable_eq_decode hwf hstat]

theorem decodedPairs_congr {inp : Input} {va va' : Key → Bool}
    (h : ∀ k ∈ assignmentKeys inp, va k = va' k) :
    decodedPairs inp va = decodedPairs inp va' := by
  unfold decodedPairs
  induction decodeTuples inp with
  | nil => rfl
  | cons tup l ih =>
    rw [List.filterMap_cons, List.filterMap_cons, ih]
    by_cases hk : keyOfTuple tup ∈ assignmentKeys inp
    · rw [h _ hk]
    · rw [if_neg (fun hc => hk hc.1), if_neg (fun hc => hk hc.1)]

theorem mkRoom_ok {ri : RoomInput} {r : Room} (h : mkRoom ri = .ok r) :
    ri.unavailable_slots = none ∧ ri.extra_fields = [] ∧
      r = ⟨ri.id, ri.name, ri.is_lab⟩ := by
  unfold mkRoom at h
  split at h <;> rename_i hc
  · exact ⟨hc.1, hc.2, (Except.ok.injEq .. ▸ h).symm⟩
  · cases h

theorem rooms_mapM_ok_forall {l : List RoomInput} {l' : List Room}
    (h : l.mapM mkRoom = .ok l') :
    ∀ ri ∈ l, ri.unavailable_slots = none ∧ ri.extra_fields = [] := by
  induction l generalizing l' with
  | nil => simp
  | cons x xs ih =>
    rw [List.mapM_cons] at h
    cases hx : mkRoom x with
    | error e =>
      rw [hx] at h
      simp [Bind.bind, Except.bind] at h
    | ok r =>
      rw [hx] at h
      cases hxs : xs.mapM mkRoom with
      | error e =>
        rw [hxs] at h
        simp [Bind.bind, Except.bind] at h
      | ok rs =>
        rw [hxs] at h
        intro ri hri
        rcases List.mem_cons.mp hri with rfl | h'
        · exact ⟨(mkRoom_ok hx).1, (mkRoom_ok hx).2.1⟩
        · exact ih hxs ri h'

theorem parseRequest_rooms_none {req : Request} {inp : Input}
    (h : parseRequest req = .ok inp) :
    ∀ ri ∈ req.rooms, ri.unavailable_slots = none ∧ ri.extra_fields = [] := by
  unfold parseRequest at h
  cases hm : req.rooms.mapM mkRoom with
  | error e =>
    rw [hm] at h
    simp [Bind.bind, Except.bind] at h
  | ok rooms => exact rooms_mapM_ok_forall hm

theorem rooms_mapM_error {l : List RoomInput} {ri : RoomInput} (hri : ri ∈ l)
    (hbad : ri.unavailable_slots ≠ none ∨ ri.extra_fields ≠ []) :
    l.mapM mkRoom = .error "TypeError: unexpected keyword argument" := by
  induction l with
  | nil => simp at hri
  | cons x xs ih =>
    rw [List.mapM_cons]
    rcases List.mem_cons.mp hri with rfl | h'
    · have hx : mkRoom ri = .error "TypeError: unexpected keyword argument" := by
        unfold mkRoom
        rw [if_neg (fun hc => by tauto)]
      rw [hx]
      rfl
    · cases hx : mkRoom x with
      | error e =>
        have he : e = "TypeError: unexpected keyword argument" := by
          unfold mkRoom at hx
          split at hx
          · cases hx
          · exact (Except.error.injEq .. ▸ hx).symm
        rw [he]
        rfl
      | ok r =>
        rw [ih h']
        rfl



/-! ## Claim theorems -/

/-- **C1** (refuted, code bug): the spec requires that satisfying exactly
one of a teacher's two adjacent-slot lecture sums never triggers the
back-to-back indicator.  The code's gadget (lines 177–179) instead posts
`cur[0] → b2b` and `next[0] → b2b`, so the model accepts the solution
`c1va` (a single Math lecture at slot 0, nothing at slot 1) only with the
indicator true: exactly one adjacent sum is positive, yet the indicator is
forced on, contradicting the claimed property and the code's own comment
`equivalent to back_to_back == (current AND next)`. -/
theorem c1_back_to_back_indicator_bug :
    modelOK c1Inp c1va c1vc c1vb = true ∧
    0 < (lecturesAt c1Inp c1T.id 0).countP c1va ∧
    (lecturesAt c1Inp c1T.id 1).countP c1va = 0 ∧
    c1vb (c1T.id, 0) = true ∧
    (∀ vb' : String × Nat → Bool, modelOK c1Inp c1va c1vc vb' = true →
      vb' (c1T.id, 0) = true) := by
  refine ⟨by decide, by decide, by decide, rfl, ?_⟩
  intro vb' hm
  have hsp := b2bOK_spec (modelOK_split hm).2.2.2.2
    (show c1T ∈ c1Inp.teachers by decide)
    (show 0 + 1 < c1Inp.lecture_slots.length by decide)
    (show (lecturesAt c1Inp c1T.id 0).head? = some c1kA from rfl)
    (show (lecturesAt c1Inp c1T.id (0 + 1)).head? = some c1kB from rfl)
  have h1 := hsp.2.1
  rw [show c1va c1kA = true from rfl] at h1
  simpa using h1

/-- **C9** (confirmed): the gadget's implications are a hard constraint —
in every accepted solution the first-enumerated variables of a teacher at
two adjacent slots are never both true — and they exclude schedules that
satisfy all four hard constraint families: on `c9Inp` (quota 2 over two
adjacent slots) the valuation `c9va` satisfies `hardOK` but no valuation
at all satisfies the full model. -/
theorem c9_gadget_hard_constraint :
    (∀ (inp : Input) (va : Key → Bool) (vc : String × String × String → Bool)
        (vb : String × Nat → Bool), modelOK inp va vc vb = true →
      ∀ t ∈ inp.teachers, ∀ i, i + 1 < inp.lecture_slots.length →
        ∀ c0 n0, (lecturesAt inp t.id i).head? = some c0 →
          (lecturesAt inp t.id (i + 1)).head? = some n0 →
            ¬(va c0 = true ∧ va n0 = true)) ∧
    (hardOK c9Inp c9va c9vc = true ∧
      ∀ (va : Key → Bool) (vc : String × String × String → Bool)
        (vb : String × Nat → Bool), modelOK c9Inp va vc vb = false) := by
  refine ⟨?_, by decide, ?_⟩
  · intro inp va vc vb hm t ht i hi c0 n0 hc hn
    exact b2b_forbids_both (modelOK_split hm).2.2.2.2 ht hi hc hn
  · intro va vc vb
    by_contra hne
    rw [Bool.not_eq_false] at hne
    have hq := quotaOK_spec (modelOK_split hne).1
      (show c1Sec ∈ c9Inp.sections by decide)
      (show "MATH" ∈ c1Sec.subject_ids by decide)
      (show subjLookup c9Inp.subjects "MATH" = some c9Subj from rfl)
    rw [show pairKeys c9Inp c1Sec.id "MATH" = [c1kA, c1kB] from rfl,
      show c9Subj.lec_per_week = 2 from rfl] at hq
    have hboth := countP_pair_eq_two hq
    exact b2b_forbids_both (modelOK_split hne).2.2.2.2
      (show c1T ∈ c9Inp.teachers by decide)
      (show 0 + 1 < c9Inp.lecture_slots.length by decide)
      (show (lecturesAt c9Inp c1T.id 0).head? = some c1kA from rfl)
      (show (lecturesAt c9Inp c1T.id (0 + 1)).head? = some c1kB from rfl)
      hboth

theorem c9_gadget_hard_constraint_witness :
    ¬(c1va c1kA = true ∧ c1va c1kB = true) :=
  c9_gadget_hard_constraint.1 c1Inp c1va c1vc c1vb (by decide) c1T (by decide)
    0 (by decide) c1kA c1kB (by decide) (by decide)

/-- **C3** (refuted, code bug): on the structurally infeasible instance
`c3Inp` (no valuation satisfies the model, so CP-SAT reports INFEASIBLE)
`create_timetable` returns the string
`"Model is INFEASIBLE. Check constraints for conflicts."` instead of
raising, and `generate_timetable_api` wraps it in a response whose status
field is `"success"` with HTTP 200 — not the `"fail"`/500 failure response
the spec requires for an infeasible model. -/
theorem c3_infeasible_reported_as_success :
    (∀ (va : Key → Bool) (vc : String × String × String → Bool)
      (vb : String × Nat → Bool), modelOK c3Inp va vc vb = false) ∧
    create_timetable c3Inp c3Res =
      .ok (.infeasibleMsg "Model is INFEASIBLE. Check constraints for conflicts.") ∧
    generate_timetable_api c3Req c3Res =
      ⟨"success", 200,
        some (.infeasibleMsg "Model is INFEASIBLE. Check constraints for conflicts."),
        none⟩ :=
  ⟨fun _ _ _ => rfl, rfl, rfl⟩

/-- **C8** (confirmed): on the spec's concrete scenario every accepted
solve outcome decodes to exactly the two Math entries at slots 0 and 2
with the qualified teacher and the ordinary room, and the API reports
success. -/
theorem c8_concrete_scenario {res : SolveResult}
    (hstat : res.status = .optimal ∨ res.status = .feasible)
    (hm : modelOK c8Inp res.va res.vc res.vb = true) :
    decode c8Inp res.va = [c8e0, c8e2] ∧
    generate_timetable_api c8Req res =
      ⟨"success", 200, some (.table [c8e0, c8e2]), none⟩ := by
  have hq := quotaOK_spec (modelOK_split hm).1
    (show c8Sec ∈ c8Inp.sections by decide)
    (show "MATH" ∈ c8Sec.subject_ids by decide)
    (show subjLookup c8Inp.subjects "MATH" = some c8Subj from rfl)
  rw [show pairKeys c8Inp c8Sec.id "MATH" = [c8k0, c8k2] from rfl,
    show c8Subj.lec_per_week = 2 from rfl] at hq
  obtain ⟨hva0, hva2⟩ := countP_pair_eq_two hq
  have hagree : ∀ k ∈ assignmentKeys c8Inp, res.va k = c8va k := by
    intro k hk
    have hmem : k = c8k0 ∨ k = c8k2 := by
      rw [show assignmentKeys c8Inp = [c8k0, c8k2] from rfl] at hk
      simpa using hk
    rcases hmem with rfl | rfl
    · rw [hva0]; rfl
    · rw [hva2]; rfl
  have hdec : decode c8Inp res.va = [c8e0, c8e2] := by
    rw [decode, decodedPairs_congr hagree]
    rfl
  refine ⟨hdec, ?_⟩
  rw [api_success (show parseRequest c8Req = .ok c8Inp from rfl)
    (show wfSubjects c8Inp = true from rfl) hstat, hdec]

theorem c8_concrete_scenario_witness :
    decode c8Inp c8res.va = [c8e0, c8e2] ∧
    generate_timetable_api c8Req c8res =
      ⟨"success", 200, some (.table [c8e0, c8e2]), none⟩ :=
  c8_concrete_scenario (Or.inl rfl) (by decide)

/-- **C2** (confirmed): a room object of the request has no
unavailable-slot field the model could ignore — any request whose rooms
carry one is rejected before model building — so in every run that builds
variables no assignment key, and hence no decoded entry, pairs a room with
a slot listed in that room input's unavailable set. -/
theorem c2_room_unavailable_respected {req : Request} {res : SolveResult}
    {inp : Input} (hparse : parseRequest req = .ok inp) :
    (∀ k ∈ assignmentKeys inp, ∀ ri ∈ req.rooms, ri.id = k.room →
      k.slot ∉ ri.unavailable_slots.getD []) ∧
    (∀ pr ∈ decodedPairs inp res.va, ∀ ri ∈ req.rooms, ri.id = pr.1.room →
      pr.1.slot ∉ ri.unavailable_slots.getD []) := by
  have hnone := parseRequest_rooms_none hparse
  constructor
  · intro k _ ri hri _
    rw [(hnone ri hri).1]
    simp
  · intro pr _ ri hri _
    rw [(hnone ri hri).1]
    simp

theorem c2_room_unavailable_respected_witness :
    c8k0.slot ∉ (((⟨"R1", "Room 1", false, none, []⟩ : RoomInput)).unavailable_slots.getD []) :=
  (@c2_room_unavailable_respected c8Req c8res c8Inp
      (show parseRequest c8Req = .ok c8Inp from rfl)).1
    c8k0 (by decide) ⟨"R1", "Room 1", false, none, []⟩ (by decide) rfl

/-- **C10** (confirmed): room construction accepts exactly `id`, `name`,
`is_lab` — it succeeds iff no extra field is present, producing the room
built from those three fields — and any request whose rooms array carries
an extra field (such as an unavailable-slot set) makes the API fail with
status `"fail"` and HTTP 500 before any model is built. -/
theorem c10_room_rejects_extra_fields :
    (∀ ri : RoomInput, mkRoom ri = .ok ⟨ri.id, ri.name, ri.is_lab⟩ ↔
      (ri.unavailable_slots = none ∧ ri.extra_fields = [])) ∧
    (∀ (req : Request) (res : SolveResult) (ri : RoomInput), ri ∈ req.rooms →
      (ri.unavailable_slots ≠ none ∨ ri.extra_fields ≠ []) →
      generate_timetable_api req res =
        ⟨"fail", 500, none, some "TypeError: unexpected keyword argument"⟩) := by
  constructor
  · intro ri
    constructor
    · intro h
      exact ⟨(mkRoom_ok h).1, (mkRoom_ok h).2.1⟩
    · intro hc
      unfold mkRoom
      rw [if_pos hc]
  · intro req res ri hri hbad
    have hp : parseRequest req = .error "TypeError: unexpected keyword argument" := by
      unfold parseRequest
      rw [rooms_mapM_error hri hbad]
      rfl
    unfold generate_timetable_api
    rw [hp]

theorem c10_room_rejects_extra_fields_witness :
    generate_timetable_api c10Req c3Res =
      ⟨"fail", 500, none, some "TypeError: unexpected keyword argument"⟩ :=
  c10_room_rejects_extra_fields.2 c10Req c3Res c10Ri (by decide)
    (Or.inl (by decide))


theorem c4_quota_decoded_witness :
    ((decodedPairs c8Inp c8res.va).countP fun pr =>
      decide (pr.1.sec = c8Sec.id ∧ pr.1.subj = "MATH")) = c8Subj.lec_per_week :=
  c4_quota_decoded (Or.inl rfl) (by decide) (by decide) (by decide) (by decide)
    (by decide) (by decide) (by decide) rfl

theorem c5_single_teacher_witness : c8k0.teacher = c8k2.teacher :=
  @c5_single_teacher c8Inp c8res (Or.inl rfl) (by decide) (c8k0, c8e0)
    (c8k2, c8e2) (by decide) (by decide) rfl rfl

theorem c6_no_double_booking_witness :
    ((decodedPairs c8Inp c8res.va).countP fun pr =>
      decide (pr.1.slot = 0 ∧ pr.1.teacher = c8T.id)) ≤ 1 ∧
    ((decodedPairs c8Inp c8res.va).countP fun pr =>
      decide (pr.1.slot = 0 ∧ pr.1.room = c8R.id)) ≤ 1 :=
  ⟨(c6_no_double_booking (Or.inl rfl) (by decide) (by decide) (by decide)
      (by decide) (by decide) (by decide)).1 c8T (by decide),
   (c6_no_double_booking (Or.inl rfl) (by decide) (by decide) (by decide)
      (by decide) (by decide) (by decide)).2 c8R (by decide)⟩

theorem c7_qualification_lab_availability_witness :
    (∃ t ∈ c8Inp.teachers, t.id = c8k0.teacher ∧ c8e0.teacher = t.name ∧
      c8k0.subj ∈ t.subject_ids ∧ c8k0.slot ∉ t.unavailable_slots) ∧
    (∃ subj, subjLookup c8Inp.subjects c8k0.subj = some subj ∧
      c8e0.subject = subj.name ∧
      ∃ r ∈ c8Inp.rooms, r.id = c8k0.room ∧ c8e0.room = r.name ∧
        (subj.requires_lab = true → r.is_lab = true)) :=
  c7_qualification_lab_availability (Or.inl rfl) (by decide) (by decide)
    (show ((c8k0, c8e0) : Key × Entry) ∈ decodedPairs c8Inp c8res.va by decide)


end AITimeGen
